import Mathlib

/-!
# Verification of the order-status / webhook core

A shallow embedding of the order-processing back office's core subsystem:
the order status state machine, the order-mutation routes built on it, and
the webhook signing / dispatch / fan-out / retry services.

Sources embedded:
* `src/backend/src/routes/orders.ts` — `STATUS_TRANSITIONS`, `canTransition`,
  `isOrderStatus`, `PATCH /api/orders/:id`, `PATCH /api/orders/:id/status`,
  `POST /api/orders/bulk-status`.
* `src/backend/src/services/webhook.service.ts` — `signPayload`,
  `sendAndRecordDelivery`, `triggerWebhooks`, `retryWebhookDelivery`.
* `src/backend/src/entities/*.ts` — the column shapes of `Order`,
  `WebhookSubscription` and `WebhookDelivery` that those functions read
  and write.

Persistent storage is modelled as explicit lists of records threaded
through each operation; the clock, the DB-generated primary keys and the
network are modelled as explicit parameters supplied by the environment.
-/

namespace BrandBolt

/-- `OrderStatus` enum from `src/backend/src/entities/Order.ts`. -/
inductive OrderStatus where
  | PENDING
  | CONFIRMED
  | PROCESSING
  | SHIPPED
  | DELIVERED
  | CANCELLED
deriving DecidableEq, Repr, Fintype

open OrderStatus

/-- The string value of each `OrderStatus` enum member (the enum is
string-valued in the source, each member equal to its own name). -/
def statusName : OrderStatus → String
  | .PENDING => "PENDING"
  | .CONFIRMED => "CONFIRMED"
  | .PROCESSING => "PROCESSING"
  | .SHIPPED => "SHIPPED"
  | .DELIVERED => "DELIVERED"
  | .CANCELLED => "CANCELLED"

/-- `Object.values(OrderStatus)` — the six enum members in declaration
order, as used by `isOrderStatus`. -/
def orderStatusValues : List OrderStatus :=
  [.PENDING, .CONFIRMED, .PROCESSING, .SHIPPED, .DELIVERED, .CANCELLED]

/-- The `STATUS_TRANSITIONS` record of `src/backend/src/routes/orders.ts`
(lines 12-19): for each status, the list of statuses it may move to. -/
def statusTransitions : OrderStatus → List OrderStatus
  | .PENDING => [.CONFIRMED, .CANCELLED]
  | .CONFIRMED => [.PROCESSING, .CANCELLED]
  | .PROCESSING => [.SHIPPED, .CANCELLED]
  | .SHIPPED => [.DELIVERED]
  | .DELIVERED => []
  | .CANCELLED => []

/-- `canTransition` of `src/backend/src/routes/orders.ts` (lines 25-27):
`STATUS_TRANSITIONS[from].includes(to)`. -/
def canTransition (src dst : OrderStatus) : Bool :=
  (statusTransitions src).contains dst

/-- `isOrderStatus` of `src/backend/src/routes/orders.ts`:
`Object.values(OrderStatus).includes(value)`, on the string values. -/
def isOrderStatus (value : String) : Bool :=
  (orderStatusValues.map statusName).contains value

/-- Recover the enum member from a string that passed `isOrderStatus`
(in the source the checked string is itself used as the enum value). -/
def parseStatus (value : String) : Option OrderStatus :=
  orderStatusValues.find? (fun st => statusName st == value)

/-- The columns of the `Order` entity that the embedded routes read or
write: primary key `id`, `status`, and nullable `notes`. The remaining
columns (`customerId`, `items`, `totalAmount`, the timestamps) are loaded
and echoed back by the routes but never consulted by the status or notes
logic, so they are not part of the model. -/
structure OrderRec where
  id : Nat
  status : OrderStatus
  notes : Option String
deriving DecidableEq, Repr

/-- `orderRepo.findOne({ where: { id } })`: look up an order by primary
key. The persisted table is modelled as a list of rows. -/
def findOrder (orders : List OrderRec) (id : Nat) : Option OrderRec :=
  orders.find? (fun o => o.id == id)

/-- `orderRepo.save(order)`: persist a loaded-and-mutated entity — the row
with the entity's primary key takes the entity's current column values. -/
def saveOrder (orders : List OrderRec) (entity : OrderRec) : List OrderRec :=
  orders.map (fun o => if o.id == entity.id then entity else o)

/-- The third argument the order routes pass to `triggerWebhooks`:
`{ previousStatus, status, order: updated }`. -/
structure StatusChangeData where
  previousStatus : OrderStatus
  status : OrderStatus
  order : OrderRec
deriving DecidableEq, Repr

/-- One call the order routes make to `triggerWebhooks(orderId, event,
data)`, recorded at the route boundary. -/
structure EmittedEvent where
  orderId : Nat
  event : String
  data : StatusChangeData
deriving DecidableEq, Repr

/-- What a route run leaves behind: the persisted order table, the
`triggerWebhooks` calls it made (in order), and its HTTP-level result. -/
structure RouteOutput (ρ : Type) where
  orders : List OrderRec
  events : List EmittedEvent
  result : ρ
deriving DecidableEq, Repr

/-- `notes?.trim() || null` from `PATCH /api/orders/:id`: a `null` body
value stays `null`; a string is trimmed, and an all-whitespace string
becomes `null` (empty string is falsy). -/
def normalizeNotes : Option String → Option String
  | none => none
  | some s => if s.trim == "" then none else some s.trim

/-- HTTP result of `PATCH /api/orders/:id`. -/
inductive PatchResult where
  | notFound
  | invalidStatusValue
  | ok (order : OrderRec)
deriving DecidableEq, Repr

/-- `PATCH /api/orders/:id` (`src/backend/src/routes/orders.ts` lines
227-271). Body fields `notes` and `status` are each absent (`none`) or
present; a present `notes` may itself be `null` (`some none`). The route
loads the order (404 if absent), applies `notes` if present, rejects a
present-but-invalid `status` with 400 *before* saving (so nothing is
persisted in that case), saves, and calls `triggerWebhooks` with
`order.status.<status>` exactly when a status was supplied and differs
from the previous one. There is no `canTransition` check on this path.
The source compares the raw body string with the stored enum string
(`status !== previousStatus`); since each enum member equals its own
name and the body string parsed to `st`, that comparison is
`st ≠ previousStatus` here. -/
def patchOrder (orders : List OrderRec) (id : Nat)
    (notes : Option (Option String)) (status : Option String) :
    RouteOutput PatchResult :=
  match findOrder orders id with
  | none => ⟨orders, [], .notFound⟩
  | some order =>
    let previousStatus := order.status
    let afterNotes : OrderRec :=
      match notes with
      | none => order
      | some n => { order with notes := normalizeNotes n }
    match status with
    | none =>
      ⟨saveOrder orders afterNotes, [], .ok afterNotes⟩
    | some s =>
      match parseStatus s with
      | none => ⟨orders, [], .invalidStatusValue⟩
      | some st =>
        let updated : OrderRec := { afterNotes with status := st }
        let emitted : List EmittedEvent :=
          if st ≠ previousStatus then
            [⟨updated.id, "order.status." ++ s, ⟨previousStatus, st, updated⟩⟩]
          else []
        ⟨saveOrder orders updated, emitted, .ok updated⟩

/-- HTTP result of `PATCH /api/orders/:id/status`. -/
inductive StatusResult where
  | invalidRequest
  | notFound
  | invalidTransition (message : String)
  | ok (order : OrderRec)
deriving DecidableEq, Repr

/-- `PATCH /api/orders/:id/status` (`src/backend/src/routes/orders.ts`
lines 299-340): 400 if the body status is missing, empty (falsy) or not
an `OrderStatus`; 404 if the order is absent; 400 with
`Invalid status transition: <current> -> <requested>` if `canTransition`
rejects (nothing persisted, nothing emitted); otherwise persist the new
status and call `triggerWebhooks(updated.id, "order.status." ++ status,
{ previousStatus, status, order: updated })`. -/
def updateOrderStatus (orders : List OrderRec) (id : Nat)
    (status : Option String) : RouteOutput StatusResult :=
  match status with
  | none => ⟨orders, [], .invalidRequest⟩
  | some s =>
    if s == "" then ⟨orders, [], .invalidRequest⟩
    else
      match parseStatus s with
      | none => ⟨orders, [], .invalidRequest⟩
      | some st =>
        match findOrder orders id with
        | none => ⟨orders, [], .notFound⟩
        | some order =>
          if canTransition order.status st then
            let previousStatus := order.status
            let updated : OrderRec := { order with status := st }
            ⟨saveOrder orders updated,
             [⟨updated.id, "order.status." ++ s, ⟨previousStatus, st, updated⟩⟩],
             .ok updated⟩
          else
            ⟨orders, [],
             .invalidTransition
               ("Invalid status transition: " ++ statusName order.status ++ " -> " ++ s)⟩

/-- The webhook event-name vocabulary of spec section 6: one name per
non-initial status. -/
def orderEventNames : List String :=
  ["order.status.CONFIRMED", "order.status.PROCESSING", "order.status.SHIPPED",
   "order.status.DELIVERED", "order.status.CANCELLED"]

/-- Loop state of `POST /api/orders/bulk-status`: the order table, the
webhook calls made so far, and the accumulating partition. -/
structure BulkState where
  orders : List OrderRec
  events : List EmittedEvent
  succeeded : List Nat
  failed : List (Nat × String)
deriving DecidableEq, Repr

/-- One iteration of the `for (const id of orderIds)` loop of
`POST /api/orders/bulk-status`: not found → `"Order not found"`;
`canTransition` rejects → `"Invalid transition: <current> -> <target>"`
(the source tests the negation and `continue`s; the branches are flipped
here); otherwise persist the new status, record the id as succeeded and
call `triggerWebhooks` with `order.status.<target>`. -/
def bulkStep (target : OrderStatus) (st : BulkState) (id : Nat) : BulkState :=
  match findOrder st.orders id with
  | none => { st with failed := st.failed ++ [(id, "Order not found")] }
  | some order =>
    if canTransition order.status target then
      let previousStatus := order.status
      let updated : OrderRec := { order with status := target }
      { orders := saveOrder st.orders updated,
        events := st.events ++
          [⟨updated.id, "order.status." ++ statusName target,
            ⟨previousStatus, target, updated⟩⟩],
        succeeded := st.succeeded ++ [id],
        failed := st.failed }
    else
      { st with failed := st.failed ++
          [(id, "Invalid transition: " ++ statusName order.status ++ " -> " ++
            statusName target)] }

/-- HTTP result of `POST /api/orders/bulk-status`. -/
inductive BulkResult where
  | invalidRequest (message : String)
  | ok (succeeded : List Nat) (failed : List (Nat × String))
deriving DecidableEq, Repr

/-- `POST /api/orders/bulk-status` (`src/backend/src/routes/orders.ts`
lines 361-407): 400 on an empty id list or a missing/invalid target
status; otherwise run `bulkStep` over the ids sequentially (each
iteration sees the saves of the previous ones) and return the full
succeeded/failed partition. -/
def bulkStatus (orders : List OrderRec) (orderIds : List Nat)
    (status : Option String) : RouteOutput BulkResult :=
  if orderIds.isEmpty then
    ⟨orders, [], .invalidRequest "orderIds must be a non-empty array"⟩
  else
    match status with
    | none => ⟨orders, [], .invalidRequest "Valid target status is required"⟩
    | some s =>
      match parseStatus s with
      | none => ⟨orders, [], .invalidRequest "Valid target status is required"⟩
      | some target =>
        let final := orderIds.foldl (bulkStep target) ⟨orders, [], [], []⟩
        ⟨final.orders, final.events, .ok final.succeeded final.failed⟩

/-! ## JSON values and `JSON.stringify`

The webhook payloads are plain JSON data (`Record<string, any>` /
`jsonb` columns); `JSON.stringify` is what both the HTTP body and the
signed bytes are produced from. -/

/-- A JSON value. Object fields keep insertion order, as
`JSON.stringify` serializes them. -/
inductive Json where
  | null
  | bool (b : Bool)
  | num (n : Int)
  | str (s : String)
  | arr (elements : List Json)
  | obj (fields : List (String × Json))
deriving Repr

/-- The two-hex-digit characters of a nibble, lowercase as Node produces. -/
def hexDigitChar (n : Nat) : Char :=
  if n < 10 then Char.ofNat (48 + n) else Char.ofNat (87 + n)

/-- `JSON.stringify` string-escaping: backslash-escapes for quote,
backslash and the named control characters, `\u00XX` for the remaining
control characters, everything else verbatim. -/
def escapeChar (c : Char) : List Char :=
  if c == '"' then ['\\', '"']
  else if c == '\\' then ['\\', '\\']
  else if c == '\n' then ['\\', 'n']
  else if c == '\r' then ['\\', 'r']
  else if c == '\t' then ['\\', 't']
  else if c == (Char.ofNat 8) then ['\\', 'b']
  else if c == (Char.ofNat 12) then ['\\', 'f']
  else if c.toNat < 32 then
    ['\\', 'u', '0', '0', hexDigitChar (c.toNat / 16), hexDigitChar (c.toNat % 16)]
  else [c]

/-- A JSON string literal: quoted and escaped. -/
def quoteString (s : String) : String :=
  ⟨'"' :: (s.data.map escapeChar).flatten ++ ['"']⟩

mutual

/-- `JSON.stringify` on a JSON value. Integers print without a decimal
point, exactly as JavaScript prints integral numbers. -/
def Json.stringify : Json → String
  | .null => "null"
  | .bool true => "true"
  | .bool false => "false"
  | .num n => toString n
  | .str s => quoteString s
  | .arr xs => "[" ++ stringifyElems xs ++ "]"
  | .obj fs => "\x7b" ++ stringifyFields fs ++ "\x7d"

/-- Comma-separated serialization of array elements. -/
def stringifyElems : List Json → String
  | [] => ""
  | [x] => x.stringify
  | x :: y :: rest => x.stringify ++ "," ++ stringifyElems (y :: rest)

/-- Comma-separated serialization of object fields, insertion order. -/
def stringifyFields : List (String × Json) → String
  | [] => ""
  | [(k, v)] => quoteString k ++ ":" ++ v.stringify
  | (k, v) :: f :: rest =>
      quoteString k ++ ":" ++ v.stringify ++ "," ++ stringifyFields (f :: rest)

end

/-! ## Bytes, SHA-256 and HMAC

`crypto.createHmac('sha256', secret).update(text).digest('hex')` hashes
the UTF-8 bytes of `text` keyed by the UTF-8 bytes of `secret`.
SHA-256 is implemented from FIPS 180-4 over `List Nat` bytes, 32-bit
words carried as `Nat` reduced modulo `2^32`. -/

/-- UTF-8 encoding of one character (code point), as Node encodes
strings handed to `Hmac.update`. -/
def utf8EncodeChar (c : Char) : List Nat :=
  let n := c.toNat
  if n < 128 then [n]
  else if n < 2048 then [192 + n / 64, 128 + n % 64]
  else if n < 65536 then [224 + n / 4096, 128 + (n / 64) % 64, 128 + n % 64]
  else [240 + n / 262144, 128 + (n / 4096) % 64, 128 + (n / 64) % 64, 128 + n % 64]

/-- UTF-8 bytes of a string. -/
def utf8Bytes (s : String) : List Nat :=
  (s.data.map utf8EncodeChar).flatten

/-- `2^32`, the word modulus. -/
def wordMod : Nat := 4294967296

/-- Addition modulo `2^32`. -/
def add32 (a b : Nat) : Nat := (a + b) % wordMod

/-- Right-rotation of a 32-bit word by `n` places. -/
def rotr32 (n x : Nat) : Nat := ((x >>> n) ||| (x <<< (32 - n))) % wordMod

/-- Bitwise complement within 32 bits. -/
def not32 (x : Nat) : Nat := x ^^^ 4294967295

/-- SHA-256 message-schedule sigma-0. -/
def ssig0 (x : Nat) : Nat := rotr32 7 x ^^^ rotr32 18 x ^^^ (x >>> 3)

/-- SHA-256 message-schedule sigma-1. -/
def ssig1 (x : Nat) : Nat := rotr32 17 x ^^^ rotr32 19 x ^^^ (x >>> 10)

/-- SHA-256 compression Sigma-0. -/
def bsig0 (x : Nat) : Nat := rotr32 2 x ^^^ rotr32 13 x ^^^ rotr32 22 x

/-- SHA-256 compression Sigma-1. -/
def bsig1 (x : Nat) : Nat := rotr32 6 x ^^^ rotr32 11 x ^^^ rotr32 25 x

/-- SHA-256 choose function. -/
def chFn (x y z : Nat) : Nat := (x &&& y) ^^^ (not32 x &&& z)

/-- SHA-256 majority function. -/
def majFn (x y z : Nat) : Nat := (x &&& y) ^^^ (x &&& z) ^^^ (y &&& z)

/-- The 64 SHA-256 round constants of FIPS 180-4 (the fractional parts
of the cube roots of the first 64 primes), in decimal. -/
def sha256K : List Nat :=
  [1116352408, 1899447441, 3049323471, 3921009573, 961987163, 1508970993,
   2453635748, 2870763221, 3624381080, 310598401, 607225278, 1426881987,
   1925078388, 2162078206, 2614888103, 3248222580, 3835390401, 4022224774,
   264347078, 604807628, 770255983, 1249150122, 1555081692, 1996064986,
   2554220882, 2821834349, 2952996808, 3210313671, 3336571891, 3584528711,
   113926993, 338241895, 666307205, 773529912, 1294757372, 1396182291,
   1695183700, 1986661051, 2177026350, 2456956037, 2730485921, 2820302411,
   3259730800, 3345764771, 3516065817, 3600352804, 4094571909, 275423344,
   430227734, 506948616, 659060556, 883997877, 958139571, 1322822218,
   1537002063, 1747873779, 1955562222, 2024104815, 2227730452, 2361852424,
   2428436474, 2756734187, 3204031479, 3329325298]

/-- The initial SHA-256 hash value. -/
def sha256H0 : List Nat :=
  [0x6a09e667, 0xbb67ae85, 0x3c6ef372, 0xa54ff53a,
   0x510e527f, 0x9b05688c, 0x1f83d9ab, 0x5be0cd19]

/-- `k` big-endian bytes of `n`. -/
def beBytes : Nat → Nat → List Nat
  | 0, _ => []
  | k + 1, n => beBytes k (n >>> 8) ++ [n % 256]

/-- FIPS 180-4 padding: append `0x80`, zero bytes up to 56 mod 64, then
the 64-bit big-endian bit length. -/
def padMessage (msg : List Nat) : List Nat :=
  let zeros := (64 - (msg.length + 9) % 64) % 64
  msg ++ 128 :: List.replicate zeros 0 ++ beBytes 8 (msg.length * 8)

/-- Big-endian 4-byte groups to 32-bit words. -/
def bytesToWords : List Nat → List Nat
  | b0 :: b1 :: b2 :: b3 :: rest =>
      ((b0 <<< 24) ||| (b1 <<< 16) ||| (b2 <<< 8) ||| b3) :: bytesToWords rest
  | _ => []

/-- Split a byte list into 64-byte blocks. Structural recursion on a
fuel bound (each step consumes at least one byte, so `l.length` steps
always suffice) so that the kernel can evaluate concrete digests. -/
def chunk64Go : Nat → List Nat → List (List Nat)
  | 0, _ => []
  | _, [] => []
  | fuel + 1, b :: rest => ((b :: rest).take 64) :: chunk64Go fuel ((b :: rest).drop 64)

/-- Split a byte list into 64-byte blocks. -/
def chunk64 (l : List Nat) : List (List Nat) :=
  chunk64Go l.length l

/-- Extend the 16-word block schedule by `fuel` further words. -/
def scheduleLoop : Nat → Array Nat → Array Nat
  | 0, ws => ws
  | fuel + 1, ws =>
    let i := ws.size
    let w := (ssig1 (ws.getD (i - 2) 0) + ws.getD (i - 7) 0 +
              ssig0 (ws.getD (i - 15) 0) + ws.getD (i - 16) 0) % wordMod
    scheduleLoop fuel (ws.push w)

/-- The eight SHA-256 working registers. -/
structure Regs where
  a : Nat
  b : Nat
  c : Nat
  d : Nat
  e : Nat
  f : Nat
  g : Nat
  h : Nat

/-- One SHA-256 round with constant `k` and schedule word `w`. -/
def roundStep (r : Regs) (kw : Nat × Nat) : Regs :=
  let t1 := (r.h + bsig1 r.e + chFn r.e r.f r.g + kw.1 + kw.2) % wordMod
  let t2 := (bsig0 r.a + majFn r.a r.b r.c) % wordMod
  ⟨(t1 + t2) % wordMod, r.a, r.b, r.c, (r.d + t1) % wordMod, r.e, r.f, r.g⟩

/-- Compress one 64-byte block into the running hash (eight words). -/
def compressBlock (hs : List Nat) (block : List Nat) : List Nat :=
  let ws := (scheduleLoop 48 ⟨bytesToWords block⟩).toList
  let init : Regs :=
    ⟨hs.getD 0 0, hs.getD 1 0, hs.getD 2 0, hs.getD 3 0,
     hs.getD 4 0, hs.getD 5 0, hs.getD 6 0, hs.getD 7 0⟩
  let r := (sha256K.zip ws).foldl roundStep init
  [add32 (hs.getD 0 0) r.a, add32 (hs.getD 1 0) r.b,
   add32 (hs.getD 2 0) r.c, add32 (hs.getD 3 0) r.d,
   add32 (hs.getD 4 0) r.e, add32 (hs.getD 5 0) r.f,
   add32 (hs.getD 6 0) r.g, add32 (hs.getD 7 0) r.h]

/-- SHA-256 of a byte list, as 32 digest bytes. -/
def sha256 (msg : List Nat) : List Nat :=
  (((chunk64 (padMessage msg)).foldl compressBlock sha256H0).map (beBytes 4)).flatten

/-- HMAC-SHA-256 (RFC 2104): keys longer than the 64-byte block are
hashed, then zero-padded; inner pad `0x36`, outer pad `0x5c`. -/
def hmacSha256 (key msg : List Nat) : List Nat :=
  let key0 := if 64 < key.length then sha256 key else key
  let keyB := key0 ++ List.replicate (64 - key0.length) 0
  sha256 ((keyB.map (· ^^^ 0x5c)) ++ sha256 ((keyB.map (· ^^^ 0x36)) ++ msg))

/-- Lowercase hex of a byte list (`digest('hex')`). -/
def bytesToHex (bs : List Nat) : String :=
  ⟨(bs.map (fun b => [hexDigitChar (b / 16), hexDigitChar (b % 16)])).flatten⟩

/-! ## The webhook service (`src/backend/src/services/webhook.service.ts`) -/

/-- The `WebhookSubscription` entity columns the service reads: primary
key `id`, `url`, signing `secret`, the `simple-array` column `events`,
and the `isActive` flag. (`createdAt` and the reverse relation are never
consulted.) -/
structure WebhookSubscription where
  id : Nat
  url : String
  secret : String
  events : List String
  isActive : Bool
deriving DecidableEq, Repr

/-- The outbound payload shape (`WebhookPayload` in the source):
`{ event, orderId, data, timestamp }`. -/
structure WebhookPayload where
  event : String
  orderId : Nat
  data : Json
  timestamp : String
deriving Repr

/-- The JSON object `JSON.stringify` sees for a payload: its four fields
in declaration order. -/
def WebhookPayload.toJson (p : WebhookPayload) : Json :=
  .obj [("event", .str p.event), ("orderId", .num p.orderId),
        ("data", p.data), ("timestamp", .str p.timestamp)]

/-- `signPayload(payload, secret)` (webhook.service.ts lines 14-16, and
the identical local copy in routes/webhooks.ts):
`crypto.createHmac('sha256', secret).update(JSON.stringify(payload)).digest('hex')`. -/
def signPayload (payload : Json) (secret : String) : String :=
  bytesToHex (hmacSha256 (utf8Bytes secret) (utf8Bytes payload.stringify))

/-- The HTTP POST `sendAndRecordDelivery` issues via axios: the target
URL, the two headers, and the serialized JSON body. -/
structure HttpRequest where
  url : String
  contentType : String
  signatureHeader : String
  body : String
deriving Repr

/-- The request built from a subscription and payload: axios serializes
the payload object with `JSON.stringify` for the body, and the signature
header is `sha256=` ++ `signPayload` of the same object. -/
def webhookRequest (subscription : WebhookSubscription)
    (payload : WebhookPayload) : HttpRequest :=
  { url := subscription.url,
    contentType := "application/json",
    signatureHeader := "sha256=" ++ signPayload payload.toJson subscription.secret,
    body := payload.toJson.stringify }

/-- How one `axios.post(..., validateStatus: () => true)` call concludes.
With `validateStatus` constantly true the promise fulfils for *every*
received HTTP status (`received`), so a rejection never carries a
response: the source's defensive `error.response?.…` reads in the catch
are dead and each rejection reduces to its message — an axios
transport-level failure (`transportError`), a non-axios `Error`
(`otherError`), or a thrown non-`Error` value (`unknownThrow`). -/
inductive HttpOutcome where
  | received (status : Nat) (data : Json)
  | transportError (message : String)
  | otherError (message : String)
  | unknownThrow
deriving Repr

/-- `typeof response.data === 'string' ? response.data :
JSON.stringify(response.data)`. -/
def responseText : Json → String
  | .str s => s
  | j => j.stringify

/-- The `WebhookDelivery` entity columns the service writes: primary key
`id` (DB-generated), `subscriptionId`, `orderId`, `event`, the stored
`payload`, nullable `statusCode`, nullable `responseBody`, `success`,
`attemptNumber`, and `deliveredAt`. (`createdAt` is DB-managed.) -/
structure DeliveryRecord where
  id : Nat
  subscriptionId : Nat
  orderId : Nat
  event : String
  payload : WebhookPayload
  statusCode : Option Nat
  responseBody : Option String
  success : Bool
  attemptNumber : Nat
  deliveredAt : Nat
deriving Repr

/-- `sendAndRecordDelivery` (webhook.service.ts lines 18-72): compute the
signature and POST (modelled by `webhookRequest` plus the `outcome` the
environment supplies); on a received response set `statusCode`, textify
the body and set `success` iff the status is in `[200, 300)`; on any
throw leave `statusCode` null, keep `success = false` and record the
error message (`'Unknown webhook delivery error'` for a non-`Error`
throw). Then unconditionally create and save one `WebhookDelivery` with
the given `attemptNumber` — the function itself never throws. `freshId`
is the DB-generated key and `now` the completion clock reading. Returns
the saved record and the delivery table with it appended. -/
def sendAndRecordDelivery (subscription : WebhookSubscription)
    (payload : WebhookPayload) (attemptNumber : Nat) (outcome : HttpOutcome)
    (freshId now : Nat) (deliveries : List DeliveryRecord) :
    DeliveryRecord × List DeliveryRecord :=
  let fields : Option Nat × Option String × Bool :=
    match outcome with
    | .received status data =>
        (some status, some (responseText data),
         decide (200 ≤ status) && decide (status < 300))
    | .transportError message => (none, some message, false)
    | .otherError message => (none, some message, false)
    | .unknownThrow => (none, some "Unknown webhook delivery error", false)
  let delivery : DeliveryRecord :=
    { id := freshId,
      subscriptionId := subscription.id,
      orderId := payload.orderId,
      event := payload.event,
      payload := payload,
      statusCode := fields.1,
      responseBody := fields.2.1,
      success := fields.2.2,
      attemptNumber := attemptNumber,
      deliveredAt := now }
  (delivery, deliveries ++ [delivery])

/-- The stored form of the `simple-array` column `events`: the member
strings joined by commas, which is what the SQL `LIKE` pattern scans. -/
def serializeEvents : List String → List Char
  | [] => []
  | [e] => e.data
  | e :: f :: rest => e.data ++ ',' :: serializeEvents (f :: rest)

/-- Substring test on character lists, as SQL `LIKE '%needle%'` matches. -/
def hasSubSeq (needle : List Char) : List Char → Bool
  | [] => needle.isEmpty
  | c :: rest => needle.isPrefixOf (c :: rest) || hasSubSeq needle rest

/-- `subscription.events LIKE :event` with pattern `%<event>%`: the event
string occurs somewhere in the serialized events column. -/
def likeMatches (event : String) (events : List String) : Bool :=
  hasSubSeq event.data (serializeEvents events)

/-- The query-builder query of `triggerWebhooks`: rows with
`isActive = true` and the `LIKE` pre-filter. -/
def sqlSubscriptionQuery (subs : List WebhookSubscription) (event : String) :
    List WebhookSubscription :=
  subs.filter (fun sub => sub.isActive && likeMatches event sub.events)

/-- The in-memory refinement of `triggerWebhooks`:
`subscriptions.filter((s) => s.events.includes(event))` over the query's
rows — exact membership of `event` in the event set. -/
def matchingSubscriptions (subs : List WebhookSubscription) (event : String) :
    List WebhookSubscription :=
  (sqlSubscriptionQuery subs event).filter (fun sub => sub.events.contains event)

/-- `triggerWebhooks(orderId, event, payload)` (webhook.service.ts lines
99-129): query the active `LIKE`-matching subscriptions, refine to exact
membership, and for each match dispatch `sendAndRecordDelivery` with the
payload `{ event, orderId, data, timestamp: new Date().toISOString() }`
and `attemptNumber = 1`. The per-subscription clock reading, network
outcome and generated key are supplied by the environment functions,
keyed by subscription id. The source awaits all dispatches
(`Promise.all`); each appends its own record, modelled in list order. -/
def triggerWebhooks (subs : List WebhookSubscription) (orderId : Nat)
    (event : String) (payloadData : Json) (timestampOf : Nat → String)
    (outcomeOf : Nat → HttpOutcome) (freshIdOf : Nat → Nat) (now : Nat)
    (deliveries : List DeliveryRecord) : List DeliveryRecord :=
  (matchingSubscriptions subs event).foldl
    (fun acc sub =>
      (sendAndRecordDelivery sub
        ⟨event, orderId, payloadData, timestampOf sub.id⟩ 1
        (outcomeOf sub.id) (freshIdOf sub.id) now acc).2)
    deliveries

/-- `deliveryRepo.findOne({ where: { id: deliveryId } })`. -/
def findDelivery (deliveries : List DeliveryRecord) (id : Nat) :
    Option DeliveryRecord :=
  deliveries.find? (fun d => d.id == id)

/-- Resolving the `subscription` relation of a delivery: the subscription
row whose primary key is the delivery's `subscriptionId`. -/
def findSubscription (subs : List WebhookSubscription) (id : Nat) :
    Option WebhookSubscription :=
  subs.find? (fun s => s.id == id)

/-- `retryWebhookDelivery(deliveryId)` (webhook.service.ts lines 144-165):
load the delivery with its subscription relation; throw
`'Webhook delivery not found'` if the delivery is absent and
`'Webhook subscription not found for delivery'` if its subscription row
is gone (both modelled as `Except.error`, with the table unchanged);
otherwise re-dispatch `sendAndRecordDelivery` with the original
subscription, the stored payload verbatim, and
`attemptNumber = originalDelivery.attemptNumber + 1`, returning the new
record. -/
def retryWebhookDelivery (subs : List WebhookSubscription)
    (deliveries : List DeliveryRecord) (deliveryId : Nat)
    (outcome : HttpOutcome) (freshId now : Nat) :
    List DeliveryRecord × Except String DeliveryRecord :=
  match findDelivery deliveries deliveryId with
  | none => (deliveries, .error "Webhook delivery not found")
  | some originalDelivery =>
    match findSubscription subs originalDelivery.subscriptionId with
    | none => (deliveries, .error "Webhook subscription not found for delivery")
    | some subscription =>
      let sent := sendAndRecordDelivery subscription originalDelivery.payload
        (originalDelivery.attemptNumber + 1) outcome freshId now deliveries
      (sent.2, .ok sent.1)

/-! ## Basic facts about the status machine and the route plumbing -/

/-- Each status string parses back to its own enum member. -/
theorem parseStatus_statusName (t : OrderStatus) : parseStatus (statusName t) = some t := by
  cases t <;> rfl

/-- No status string is empty (the routes' falsy check never fires on a
valid status). -/
theorem statusName_ne_empty (t : OrderStatus) : (statusName t == "") = false := by
  cases t <;> rfl

/-- A string that parses to a status is that status's name. -/
theorem parseStatus_eq_name {s : String} {t : OrderStatus}
    (h : parseStatus s = some t) : statusName t = s := by
  have hp := List.find?_some h
  exact eq_of_beq hp

/-- No self-transition is ever legal. -/
theorem canTransition_self_false (s : OrderStatus) : canTransition s s = false := by
  cases s <;> rfl

/-- Any legal transition target yields an event name in the spec's
five-name vocabulary (in particular, `PENDING` is never a target). -/
theorem canTransition_event_vocab {s t : OrderStatus}
    (h : canTransition s t = true) :
    ("order.status." ++ statusName t) ∈ orderEventNames := by
  revert h
  cases s <;> cases t <;> decide

/-- `saveOrder` keeps every row's primary key in place. -/
theorem saveOrder_map_id (orders : List OrderRec) (entity : OrderRec) :
    (saveOrder orders entity).map OrderRec.id = orders.map OrderRec.id := by
  simp only [saveOrder, List.map_map]
  refine List.map_congr_left ?_
  intro a _
  by_cases h : a.id == entity.id
  · simp [Function.comp, h, eq_of_beq h]
  · simp [Function.comp, h]

/-- Row `i` after a save: the entity if the row had its key, otherwise
the old row. -/
theorem saveOrder_getElem? (orders : List OrderRec) (entity : OrderRec) (i : Nat) :
    (saveOrder orders entity)[i]? =
      (orders[i]?).map (fun o => if o.id == entity.id then entity else o) := by
  simp [saveOrder, List.getElem?_map]

/-- A found order is a member and carries the looked-up key. -/
theorem findOrder_some {orders : List OrderRec} {id : Nat} {o : OrderRec}
    (h : findOrder orders id = some o) : o ∈ orders ∧ o.id = id := by
  refine ⟨List.mem_of_find?_eq_some h, ?_⟩
  have hb := List.find?_some h
  exact eq_of_beq hb

/-- With primary keys unique, two rows with the same key coincide. -/
theorem eq_of_mem_nodup_ids {orders : List OrderRec}
    (hnd : (orders.map OrderRec.id).Nodup) {a b : OrderRec}
    (ha : a ∈ orders) (hb : b ∈ orders) (hid : a.id = b.id) : a = b := by
  induction orders with
  | nil => cases ha
  | cons o rest ih =>
    simp only [List.map_cons, List.nodup_cons] at hnd
    rcases List.mem_cons.mp ha with rfl | ha' <;>
      rcases List.mem_cons.mp hb with rfl | hb'
    · rfl
    · exact absurd (hid ▸ List.mem_map_of_mem OrderRec.id hb') hnd.1
    · exact absurd (hid ▸ List.mem_map_of_mem OrderRec.id ha') hnd.1
    · exact ih hnd.2 ha' hb'

/-! ## C1 — the transition table is exact -/

/-- C1: `canTransition(from, to)` is true exactly on the seven pairs of
the fixed adjacency table, and false everywhere else — in particular on
all six self-pairs and every pair leaving `DELIVERED` or `CANCELLED`. -/
theorem canTransition_exact_table :
    (∀ source target : OrderStatus,
        canTransition source target = true ↔
          (source, target) ∈
            [(PENDING, CONFIRMED), (PENDING, CANCELLED),
             (CONFIRMED, PROCESSING), (CONFIRMED, CANCELLED),
             (PROCESSING, SHIPPED), (PROCESSING, CANCELLED),
             (SHIPPED, DELIVERED)])
    ∧ (∀ s : OrderStatus, canTransition s s = false)
    ∧ (∀ t : OrderStatus,
        canTransition DELIVERED t = false ∧ canTransition CANCELLED t = false) := by
  decide

/-! ## C6 — the dedicated status-change operation -/

/-- C6: `PATCH /api/orders/:id/status` with a requested target status
fails not-found when the order is absent; fails with an invalid-transition
message naming the current and the requested status — leaving the table
and the webhook log untouched — when `canTransition` rejects; and
otherwise persists exactly the status change and emits one
`order.status.<REQUESTED>` event whose data carries the previous status,
the new status and the updated order snapshot. -/
theorem updateOrderStatus_contract (orders : List OrderRec) (id : Nat)
    (t : OrderStatus) :
    (findOrder orders id = none →
      updateOrderStatus orders id (some (statusName t)) = ⟨orders, [], .notFound⟩)
    ∧ (∀ o, findOrder orders id = some o → canTransition o.status t = false →
        updateOrderStatus orders id (some (statusName t)) =
          ⟨orders, [],
           .invalidTransition
             ("Invalid status transition: " ++ statusName o.status ++ " -> " ++
               statusName t)⟩)
    ∧ (∀ o, findOrder orders id = some o → canTransition o.status t = true →
        updateOrderStatus orders id (some (statusName t)) =
          ⟨saveOrder orders { o with status := t },
           [⟨o.id, "order.status." ++ statusName t,
             ⟨o.status, t, { o with status := t }⟩⟩],
           .ok { o with status := t }⟩) := by
  refine ⟨fun h => ?_, fun o ho hcan => ?_, fun o ho hcan => ?_⟩
  · simp [updateOrderStatus, statusName_ne_empty, parseStatus_statusName, h]
  · simp [updateOrderStatus, statusName_ne_empty, parseStatus_statusName, ho, hcan]
  · simp [updateOrderStatus, statusName_ne_empty, parseStatus_statusName, ho, hcan]

/-- A concrete run of each branch of `updateOrderStatus_contract`: a
one-row table with a `PENDING` order, looked up by a present id, a
missing id, a legal target and an illegal one. -/
theorem updateOrderStatus_contract_witness :
    updateOrderStatus [⟨1, PENDING, none⟩] 2 (some "CONFIRMED") =
      ⟨[⟨1, PENDING, none⟩], [], .notFound⟩
    ∧ updateOrderStatus [⟨1, PENDING, none⟩] 1 (some "SHIPPED") =
      ⟨[⟨1, PENDING, none⟩], [],
       .invalidTransition "Invalid status transition: PENDING -> SHIPPED"⟩
    ∧ updateOrderStatus [⟨1, PENDING, none⟩] 1 (some "CONFIRMED") =
      ⟨[⟨1, CONFIRMED, none⟩],
       [⟨1, "order.status.CONFIRMED", ⟨PENDING, CONFIRMED, ⟨1, CONFIRMED, none⟩⟩⟩],
       .ok ⟨1, CONFIRMED, none⟩⟩ := by
  refine ⟨(updateOrderStatus_contract [⟨1, PENDING, none⟩] 2 CONFIRMED).1 (by decide),
    ?_, ?_⟩
  · exact (updateOrderStatus_contract [⟨1, PENDING, none⟩] 1 SHIPPED).2.1
      ⟨1, PENDING, none⟩ (by decide) (by decide)
  · exact (updateOrderStatus_contract [⟨1, PENDING, none⟩] 1 CONFIRMED).2.2
      ⟨1, PENDING, none⟩ (by decide) (by decide)

/-! ## Case analyses of the status routes -/

/-- A run of the dedicated status route either changes nothing and emits
nothing, or it found the order, `canTransition` approved, and it saved
exactly the status change and emitted exactly one event for it. -/
theorem updateOrderStatus_cases (orders : List OrderRec) (id : Nat)
    (statusBody : Option String) :
    ((updateOrderStatus orders id statusBody).orders = orders ∧
      (updateOrderStatus orders id statusBody).events = [])
    ∨ ∃ o s st, statusBody = some s ∧ parseStatus s = some st ∧
        findOrder orders id = some o ∧ canTransition o.status st = true ∧
        updateOrderStatus orders id statusBody =
          ⟨saveOrder orders { o with status := st },
           [⟨o.id, "order.status." ++ s, ⟨o.status, st, { o with status := st }⟩⟩],
           .ok { o with status := st }⟩ := by
  rcases statusBody with _ | s
  · exact Or.inl ⟨rfl, rfl⟩
  · by_cases hs : s == ""
    · exact Or.inl ⟨by simp [updateOrderStatus, hs], by simp [updateOrderStatus, hs]⟩
    · rcases hp : parseStatus s with _ | st
      · exact Or.inl ⟨by simp [updateOrderStatus, hs, hp], by simp [updateOrderStatus, hs, hp]⟩
      · rcases hf : findOrder orders id with _ | o
        · exact Or.inl
            ⟨by simp [updateOrderStatus, hs, hp, hf], by simp [updateOrderStatus, hs, hp, hf]⟩
        · by_cases hc : canTransition o.status st
          · exact Or.inr ⟨o, s, st, rfl, hp, rfl, hc,
              by simp [updateOrderStatus, hs, hp, hf, hc]⟩
          · exact Or.inl
              ⟨by simp [updateOrderStatus, hs, hp, hf, hc],
               by simp [updateOrderStatus, hs, hp, hf, hc]⟩

/-- One bulk-loop iteration is exactly the per-order logic: miss →
`"Order not found"`; found but rejected → the invalid-transition reason
naming the current and target statuses; found and approved → save the
status change, record the id as succeeded, emit one event. -/
theorem bulkStep_cases (t : OrderStatus) (st : BulkState) (id : Nat) :
    (findOrder st.orders id = none ∧
      bulkStep t st id = { st with failed := st.failed ++ [(id, "Order not found")] })
    ∨ (∃ o, findOrder st.orders id = some o ∧ canTransition o.status t = true ∧
        bulkStep t st id =
          { orders := saveOrder st.orders { o with status := t },
            events := st.events ++
              [⟨o.id, "order.status." ++ statusName t,
                ⟨o.status, t, { o with status := t }⟩⟩],
            succeeded := st.succeeded ++ [id],
            failed := st.failed })
    ∨ (∃ o, findOrder st.orders id = some o ∧ canTransition o.status t = false ∧
        bulkStep t st id = { st with failed := st.failed ++
          [(id, "Invalid transition: " ++ statusName o.status ++ " -> " ++
            statusName t)] }) := by
  rcases hf : findOrder st.orders id with _ | o
  · exact Or.inl ⟨rfl, by simp [bulkStep, hf]⟩
  · by_cases hc : canTransition o.status t
    · exact Or.inr (Or.inl ⟨o, rfl, hc, by simp [bulkStep, hf, hc]⟩)
    · exact Or.inr (Or.inr ⟨o, rfl, by simpa using hc, by simp [bulkStep, hf, hc]⟩)

/-- The shape of one bulk-loop iteration's bookkeeping: exactly one id
lands in exactly one bucket, failure reasons have one of the two
specified forms, and any new event's name is in the five-name
vocabulary. -/
theorem bulkStep_shape (t : OrderStatus) (st : BulkState) (id : Nat) :
    ((bulkStep t st id).succeeded.length + (bulkStep t st id).failed.length
        = st.succeeded.length + st.failed.length + 1)
    ∧ ((bulkStep t st id).failed = st.failed ∨
        ∃ r, (bulkStep t st id).failed = st.failed ++ [(id, r)] ∧
          (r = "Order not found" ∨
            ∃ s, r = "Invalid transition: " ++ statusName s ++ " -> " ++ statusName t))
    ∧ ((bulkStep t st id).succeeded = st.succeeded ∨
        (bulkStep t st id).succeeded = st.succeeded ++ [id])
    ∧ (∀ e ∈ (bulkStep t st id).events, e ∈ st.events ∨ e.event ∈ orderEventNames) := by
  rcases bulkStep_cases t st id with ⟨_, hstep⟩ | ⟨o, _, hc, hstep⟩ | ⟨o, _, _, hstep⟩
  · rw [hstep]
    refine ⟨by simp only [List.length_append, List.length_cons, List.length_nil]; omega,
      Or.inr ⟨_, rfl, Or.inl rfl⟩, Or.inl rfl, ?_⟩
    exact fun e he => Or.inl he
  · rw [hstep]
    refine ⟨by simp only [List.length_append, List.length_cons, List.length_nil]; omega,
      Or.inl rfl, Or.inr rfl, ?_⟩
    intro e he
    rcases List.mem_append.mp he with h | h
    · exact Or.inl h
    · rcases List.mem_singleton.mp h with rfl
      exact Or.inr (canTransition_event_vocab hc)
  · rw [hstep]
    refine ⟨by simp only [List.length_append, List.length_cons, List.length_nil]; omega,
      Or.inr ⟨_, rfl, Or.inr ⟨o.status, rfl⟩⟩, Or.inl rfl, fun e he => Or.inl he⟩

/-- Folding the bulk loop: the bucket sizes grow by exactly the number of
processed ids, every failure either predates the loop or names a
processed id with one of the two reason forms, and every success either
predates the loop or is a processed id. -/
theorem bulkLoop_partition (t : OrderStatus) (ids : List Nat) (st : BulkState) :
    ((ids.foldl (bulkStep t) st).succeeded.length +
        (ids.foldl (bulkStep t) st).failed.length
      = st.succeeded.length + st.failed.length + ids.length)
    ∧ (∀ p ∈ (ids.foldl (bulkStep t) st).failed,
        p ∈ st.failed ∨ (p.1 ∈ ids ∧ (p.2 = "Order not found" ∨
          ∃ s, p.2 = "Invalid transition: " ++ statusName s ++ " -> " ++ statusName t)))
    ∧ (∀ x ∈ (ids.foldl (bulkStep t) st).succeeded, x ∈ st.succeeded ∨ x ∈ ids) := by
  induction ids generalizing st with
  | nil => exact ⟨by simp, fun p hp => Or.inl hp, fun x hx => Or.inl hx⟩
  | cons id rest ih =>
    obtain ⟨slen, sfail, ssucc⟩ := bulkStep_shape t st id
    obtain ⟨hlen, hfail, hsucc⟩ := ih (bulkStep t st id)
    simp only [List.foldl_cons]
    refine ⟨by rw [hlen, slen]; simp [Nat.add_assoc, Nat.add_comm, Nat.add_left_comm], ?_, ?_⟩
    · intro p hp
      rcases hfail p hp with hin | ⟨hmem, hform⟩
      · rcases sfail with heq | ⟨r, heq, hform'⟩
        · exact Or.inl (heq ▸ hin)
        · rw [heq] at hin
          rcases List.mem_append.mp hin with h | h
          · exact Or.inl h
          · rcases List.mem_singleton.mp h with rfl
            exact Or.inr ⟨List.mem_cons_self _ _, hform'⟩
      · exact Or.inr ⟨List.mem_cons_of_mem _ hmem, hform⟩
    · intro x hx
      rcases hsucc x hx with hin | hmem
      · rcases ssucc with heq | heq
        · exact Or.inl (heq ▸ hin)
        · rw [heq] at hin
          rcases List.mem_append.mp hin with h | h
          · exact Or.inl h
          · rcases List.mem_singleton.mp h with rfl
            exact Or.inr (List.mem_cons_self _ _)
      · exact Or.inr (List.mem_cons_of_mem _ hmem)

/-! ## C7 — bulk status update -/

/-- C7: with a valid target status, the bulk route is exactly the
sequential fold of the per-order step over the id list; every id lands in
exactly one bucket of the returned partition (the loop never aborts), all
failure reasons read `"Order not found"` or
`"Invalid transition: X -> Y"` with `Y` the target, and one step is
exactly the per-order logic of the dedicated status route's rules:
not-found, transition-rejected, or checked-save-and-notify. -/
theorem bulkStatus_partition (orders : List OrderRec) (ids : List Nat)
    (t : OrderStatus) :
    (ids ≠ [] →
      bulkStatus orders ids (some (statusName t)) =
        ⟨(ids.foldl (bulkStep t) ⟨orders, [], [], []⟩).orders,
         (ids.foldl (bulkStep t) ⟨orders, [], [], []⟩).events,
         .ok (ids.foldl (bulkStep t) ⟨orders, [], [], []⟩).succeeded
           (ids.foldl (bulkStep t) ⟨orders, [], [], []⟩).failed⟩)
    ∧ ((ids.foldl (bulkStep t) ⟨orders, [], [], []⟩).succeeded.length +
         (ids.foldl (bulkStep t) ⟨orders, [], [], []⟩).failed.length = ids.length)
    ∧ (∀ p ∈ (ids.foldl (bulkStep t) ⟨orders, [], [], []⟩).failed,
        p.1 ∈ ids ∧ (p.2 = "Order not found" ∨
          ∃ s, p.2 = "Invalid transition: " ++ statusName s ++ " -> " ++ statusName t))
    ∧ (∀ x ∈ (ids.foldl (bulkStep t) ⟨orders, [], [], []⟩).succeeded, x ∈ ids)
    ∧ (∀ st id,
        (findOrder st.orders id = none ∧
          bulkStep t st id = { st with failed := st.failed ++ [(id, "Order not found")] })
        ∨ (∃ o, findOrder st.orders id = some o ∧ canTransition o.status t = true ∧
            bulkStep t st id =
              { orders := saveOrder st.orders { o with status := t },
                events := st.events ++
                  [⟨o.id, "order.status." ++ statusName t,
                    ⟨o.status, t, { o with status := t }⟩⟩],
                succeeded := st.succeeded ++ [id],
                failed := st.failed })
        ∨ (∃ o, findOrder st.orders id = some o ∧ canTransition o.status t = false ∧
            bulkStep t st id = { st with failed := st.failed ++
              [(id, "Invalid transition: " ++ statusName o.status ++ " -> " ++
                statusName t)] })) := by
  obtain ⟨hlen, hfail, hsucc⟩ := bulkLoop_partition t ids ⟨orders, [], [], []⟩
  refine ⟨?_, by simpa using hlen, ?_, ?_, fun st id => bulkStep_cases t st id⟩
  · intro hne
    cases ids with
    | nil => exact absurd rfl hne
    | cons a l => simp [bulkStatus, parseStatus_statusName]
  · intro p hp
    rcases hfail p hp with h | ⟨hmem, hform⟩
    · cases h
    · exact ⟨hmem, hform⟩
  · intro x hx
    rcases hsucc x hx with h | hmem
    · cases h
    · exact hmem

/-- A run of the spec's own bulk example through `bulkStatus_partition`:
ids `[1 (PENDING), 2 (DELIVERED)]`, target `CONFIRMED`, giving
`succeeded = [1]` and a single invalid-transition failure for id 2. -/
theorem bulkStatus_partition_witness :
    bulkStatus [⟨1, PENDING, none⟩, ⟨2, DELIVERED, none⟩] [1, 2] (some "CONFIRMED") =
      ⟨[⟨1, CONFIRMED, none⟩, ⟨2, DELIVERED, none⟩],
       [⟨1, "order.status.CONFIRMED", ⟨PENDING, CONFIRMED, ⟨1, CONFIRMED, none⟩⟩⟩],
       .ok [1] [(2, "Invalid transition: DELIVERED -> CONFIRMED")]⟩ := by
  have h := (bulkStatus_partition [⟨1, PENDING, none⟩, ⟨2, DELIVERED, none⟩]
    [1, 2] CONFIRMED).1 (by decide)
  simp only [statusName] at h
  rw [h]
  decide

/-- Every event present after folding the bulk loop either predates the
loop or carries a vocabulary name. -/
theorem bulkLoop_events (t : OrderStatus) (ids : List Nat) (st : BulkState) :
    ∀ e ∈ (ids.foldl (bulkStep t) st).events,
      e ∈ st.events ∨ e.event ∈ orderEventNames := by
  induction ids generalizing st with
  | nil => exact fun e he => Or.inl he
  | cons id rest ih =>
    intro e he
    rcases ih (bulkStep t st id) e (by simpa using he) with h | h
    · exact (bulkStep_shape t st id).2.2.2 e h
    · exact Or.inr h

/-! ## C2 — which operations mutate `status` through the check -/

/-- A save of a loaded order with only its status changed either leaves
row `i` alone or (keys unique) row `i` was that very order. -/
theorem saveOrder_mutation {orders : List OrderRec}
    (hnd : (orders.map OrderRec.id).Nodup) {order : OrderRec}
    (hmem : order ∈ orders) (t : OrderStatus) {i : Nat} {o o' : OrderRec}
    (ho : orders[i]? = some o)
    (ho' : (saveOrder orders { order with status := t })[i]? = some o') :
    o' = o ∨ (o = order ∧ o' = { o with status := t }) := by
  rw [saveOrder_getElem?, ho, Option.map_some'] at ho'
  have hcase := Option.some_inj.mp ho'
  by_cases hbeq : o.id == ({ order with status := t } : OrderRec).id
  · right
    have hid : o.id = order.id := eq_of_beq hbeq
    have homem : o ∈ orders := List.getElem?_mem ho
    have hoo : o = order := eq_of_mem_nodup_ids hnd homem hmem hid
    rw [if_pos hbeq] at hcase
    exact ⟨hoo, by rw [← hcase, hoo]⟩
  · left
    rw [if_neg hbeq] at hcase
    exact hcase.symm

/-- Folding the bulk loop preserves the relation to the starting table:
every row is either untouched or has exactly its status changed to the
target with `canTransition` having approved the change (a second change
of the same row would be a self-transition, which the table forbids). -/
theorem bulkLoop_mutation_invariant (t : OrderStatus) (ids : List Nat)
    (st : BulkState) (base : List OrderRec)
    (hnd : (base.map OrderRec.id).Nodup)
    (hids : st.orders.map OrderRec.id = base.map OrderRec.id)
    (hinv : ∀ (i : Nat) (o o' : OrderRec), base[i]? = some o →
        st.orders[i]? = some o' →
        o' = o ∨ (o' = { o with status := t } ∧ canTransition o.status t = true)) :
    ∀ (i : Nat) (o o' : OrderRec), base[i]? = some o →
      (ids.foldl (bulkStep t) st).orders[i]? = some o' →
      o' = o ∨ (o' = { o with status := t } ∧ canTransition o.status t = true) := by
  induction ids generalizing st with
  | nil => exact hinv
  | cons id rest ih =>
    simp only [List.foldl_cons]
    rcases bulkStep_cases t st id with ⟨_, hstep⟩ | ⟨o₀, hfind, hc, hstep⟩ | ⟨_, _, _, hstep⟩
    · rw [hstep]; exact ih _ hids hinv
    · rw [hstep]
      have hnd' : (st.orders.map OrderRec.id).Nodup := by rw [hids]; exact hnd
      refine ih _ ((saveOrder_map_id _ _).trans hids) ?_
      intro i o o' hb ho'
      have ho'' : (saveOrder st.orders { o₀ with status := t })[i]? = some o' := ho'
      rcases hcur : st.orders[i]? with _ | oc
      · rw [saveOrder_getElem?, hcur] at ho''
        cases ho''
      · rcases saveOrder_mutation hnd' (findOrder_some hfind).1 t hcur ho'' with
          h | ⟨hoc₀, h₂⟩
        · rcases hinv i o oc hb hcur with hoco | ⟨hoco, hc₀⟩
          · exact Or.inl (by rw [h, hoco])
          · exact Or.inr ⟨by rw [h, hoco], hc₀⟩
        · rcases hinv i o oc hb hcur with hoco | ⟨hoco, hc₀⟩
          · refine Or.inr ⟨by rw [h₂, hoco], ?_⟩
            rw [← hoco, hoc₀]
            exact hc
          · exfalso
            have hst : o₀.status = t := by rw [← hoc₀, hoco]
            rw [hst] at hc
            rw [canTransition_self_false] at hc
            cases hc
    · rw [hstep]; exact ih _ hids hinv

/-- C2 is refuted by the generic field-update route: `PATCH /orders/:id`
persists `DELIVERED -> PENDING`, which the transition table forbids. -/
theorem patchOrder_bypasses_transition_check :
    canTransition DELIVERED PENDING = false
    ∧ patchOrder [⟨1, DELIVERED, none⟩] 1 none (some "PENDING") =
        ⟨[⟨1, PENDING, none⟩],
         [⟨1, "order.status.PENDING", ⟨DELIVERED, PENDING, ⟨1, PENDING, none⟩⟩⟩],
         .ok ⟨1, PENDING, none⟩⟩ := by
  decide

/-- C2 (amended): the transition-validated operations — the dedicated
status route and the bulk route — mutate an order's persisted status only
through `canTransition`: whenever either of them changes row `i` from
status `S` to `T`, `canTransition S T` holds. (The generic
`PATCH /orders/:id` route is exempt: it writes the status field with no
such check, see `patchOrder_bypasses_transition_check`.) -/
theorem gated_status_mutations_checked :
    (∀ (orders : List OrderRec) (id : Nat) (statusBody : Option String)
        (i : Nat) (o o' : OrderRec),
        (orders.map OrderRec.id).Nodup →
        orders[i]? = some o →
        (updateOrderStatus orders id statusBody).orders[i]? = some o' →
        o.status ≠ o'.status →
        canTransition o.status o'.status = true)
    ∧ (∀ (orders : List OrderRec) (ids : List Nat) (statusBody : Option String)
        (i : Nat) (o o' : OrderRec),
        (orders.map OrderRec.id).Nodup →
        orders[i]? = some o →
        (bulkStatus orders ids statusBody).orders[i]? = some o' →
        o.status ≠ o'.status →
        canTransition o.status o'.status = true) := by
  constructor
  · intro orders id statusBody i o o' hnd ho ho' hne
    rcases updateOrderStatus_cases orders id statusBody with
      ⟨heq, _⟩ | ⟨o₀, s, st, _, _, hfind, hc, hrun⟩
    · rw [heq, ho] at ho'
      cases ho'
      exact absurd rfl hne
    · rw [hrun] at ho'
      rcases saveOrder_mutation hnd (findOrder_some hfind).1 st ho ho' with h | ⟨h₁, h₂⟩
      · subst h
        exact absurd rfl hne
      · rw [h₂, h₁]
        exact hc
  · intro orders ids statusBody i o o' hnd ho ho' hne
    by_cases hemp : ids.isEmpty
    · have heq : (bulkStatus orders ids statusBody).orders = orders := by
        simp [bulkStatus, hemp]
      rw [heq, ho] at ho'
      cases ho'
      exact absurd rfl hne
    · rcases statusBody with _ | s
      · have heq : (bulkStatus orders ids none).orders = orders := by
          simp [bulkStatus, hemp]
        rw [heq, ho] at ho'
        cases ho'
        exact absurd rfl hne
      · rcases hp : parseStatus s with _ | target
        · have heq : (bulkStatus orders ids (some s)).orders = orders := by
            simp [bulkStatus, hemp, hp]
          rw [heq, ho] at ho'
          cases ho'
          exact absurd rfl hne
        · have heq : (bulkStatus orders ids (some s)).orders =
              (ids.foldl (bulkStep target) ⟨orders, [], [], []⟩).orders := by
            simp [bulkStatus, hemp, hp]
          rw [heq] at ho'
          have hinv₀ : ∀ (j : Nat) (a a' : OrderRec), orders[j]? = some a →
              (⟨orders, [], [], []⟩ : BulkState).orders[j]? = some a' →
              a' = a ∨ (a' = { a with status := target } ∧
                canTransition a.status target = true) := by
            intro j a a' hb hcur
            rw [hb] at hcur
            cases hcur
            exact Or.inl rfl
          rcases bulkLoop_mutation_invariant target ids ⟨orders, [], [], []⟩ orders
              hnd rfl hinv₀ i o o' ho ho' with h | ⟨h₂, hc⟩
          · subst h
            exact absurd rfl hne
          · rw [h₂]
            exact hc

/-- The checked mutation of `gated_status_mutations_checked` at a
concrete run: the one status change the dedicated route persists on a
singleton table is table-approved. -/
theorem gated_status_mutations_checked_witness :
    canTransition PENDING CONFIRMED = true :=
  gated_status_mutations_checked.1 [⟨1, PENDING, none⟩] 1 (some "CONFIRMED") 0
    ⟨1, PENDING, none⟩ ⟨1, CONFIRMED, none⟩ (by decide) (by decide) (by decide)
    (by decide)

/-! ## C8 — which event names can be emitted -/

/-- C8 is refuted by the generic field-update route: a `PATCH /orders/:id`
run that sets the status field back to `PENDING` emits the event string
`order.status.PENDING`. -/
theorem patchOrder_emits_pending_event :
    (patchOrder [⟨1, CONFIRMED, none⟩] 1 none (some "PENDING")).events =
      [⟨1, "order.status.PENDING", ⟨CONFIRMED, PENDING, ⟨1, PENDING, none⟩⟩⟩]
    ∧ "order.status.PENDING" ∈
        ((patchOrder [⟨1, CONFIRMED, none⟩] 1 none (some "PENDING")).events.map
          EmittedEvent.event) := by
  decide

/-- C8 (amended): the transition-validated operations — the dedicated
status route and the bulk route — only ever emit the five event names
`order.status.<T>` with `T` a legal transition target, so never
`order.status.PENDING`. (The generic `PATCH /orders/:id` route can emit
any `order.status.<S>`, including `PENDING`, see
`patchOrder_emits_pending_event`.) -/
theorem gated_routes_event_vocab :
    (∀ orders id statusBody e,
        e ∈ (updateOrderStatus orders id statusBody).events →
        e.event ∈ orderEventNames)
    ∧ (∀ orders ids statusBody e,
        e ∈ (bulkStatus orders ids statusBody).events →
        e.event ∈ orderEventNames) := by
  constructor
  · intro orders id statusBody e he
    rcases updateOrderStatus_cases orders id statusBody with
      ⟨_, hev⟩ | ⟨o, s, st, _, hp, _, hc, hrun⟩
    · rw [hev] at he
      cases he
    · rw [hrun] at he
      rcases List.mem_singleton.mp he with rfl
      have hname : statusName st = s := parseStatus_eq_name hp
      have hvoc := canTransition_event_vocab hc
      rw [hname] at hvoc
      exact hvoc
  · intro orders ids statusBody e he
    by_cases hemp : ids.isEmpty
    · rw [show (bulkStatus orders ids statusBody).events = [] from by
        simp [bulkStatus, hemp]] at he
      cases he
    · rcases statusBody with _ | s
      · rw [show (bulkStatus orders ids none).events = [] from by
          simp [bulkStatus, hemp]] at he
        cases he
      · rcases hp : parseStatus s with _ | target
        · rw [show (bulkStatus orders ids (some s)).events = [] from by
            simp [bulkStatus, hemp, hp]] at he
          cases he
        · rw [show (bulkStatus orders ids (some s)).events =
              (ids.foldl (bulkStep target) ⟨orders, [], [], []⟩).events from by
            simp [bulkStatus, hemp, hp]] at he
          rcases bulkLoop_events target ids ⟨orders, [], [], []⟩ e he with h | h
          · cases h
          · exact h

/-- A concrete vocabulary check through `gated_routes_event_vocab`: the
event the dedicated route emits for `PENDING -> CONFIRMED` is one of the
five names. -/
theorem gated_routes_event_vocab_witness :
    ("order.status.CONFIRMED" : String) ∈ orderEventNames :=
  gated_routes_event_vocab.1 [⟨1, PENDING, none⟩] 1 (some "CONFIRMED")
    ⟨1, "order.status.CONFIRMED", ⟨PENDING, CONFIRMED, ⟨1, CONFIRMED, none⟩⟩⟩
    (by decide)

/-! ## C4 — fan-out reaches exactly the active, exactly-subscribed rows -/

/-- A needle that is a prefix of the haystack is found by the substring
scan. -/
theorem hasSubSeq_of_isPrefixOf {needle hay : List Char}
    (h : needle.isPrefixOf hay = true) : hasSubSeq needle hay = true := by
  cases hay with
  | nil =>
    cases needle with
    | nil => rfl
    | cons c cs => cases h
  | cons c rest => simp [hasSubSeq, h]

/-- The substring scan finds every infix occurrence. -/
theorem hasSubSeq_of_infix {needle hay : List Char}
    (h : needle <:+: hay) : hasSubSeq needle hay = true := by
  obtain ⟨pre, post, hsplit⟩ := h
  induction pre generalizing hay with
  | nil =>
    subst hsplit
    exact hasSubSeq_of_isPrefixOf
      (List.isPrefixOf_iff_prefix.mpr (List.prefix_append needle post))
  | cons c pre' ih =>
    subst hsplit
    have hrec : hasSubSeq needle (pre' ++ needle ++ post) = true := ih rfl
    show (needle.isPrefixOf ((c :: pre') ++ needle ++ post) ||
      hasSubSeq needle (pre' ++ needle ++ post)) = true
    rw [hrec, Bool.or_true]

/-- An event string that is a member of the event set occurs as an infix
of the comma-joined stored column. -/
theorem mem_infix_serializeEvents {s : String} {l : List String} (h : s ∈ l) :
    s.data <:+: serializeEvents l := by
  induction l with
  | nil => cases h
  | cons e rest ih =>
    cases rest with
    | nil =>
      rcases List.mem_singleton.mp h with rfl
      exact List.infix_refl _
    | cons f rest' =>
      rcases List.mem_cons.mp h with rfl | hmem
      · exact (List.prefix_append s.data (',' :: serializeEvents (f :: rest'))).isInfix
      · obtain ⟨u, v, huv⟩ := ih hmem
        exact ⟨e.data ++ ',' :: u, v, by
          rw [show serializeEvents (e :: f :: rest') =
            e.data ++ ',' :: serializeEvents (f :: rest') from rfl, ← huv]
          simp⟩

/-- Exact membership implies the SQL `LIKE '%event%'` pre-filter matches:
the pre-filter never loses a row the exact filter would keep. -/
theorem likeMatches_of_contains {event : String} {events : List String}
    (h : events.contains event = true) : likeMatches event events = true :=
  hasSubSeq_of_infix (mem_infix_serializeEvents (List.mem_of_elem_eq_true h))

/-- The two-stage selection of `triggerWebhooks` — the active `LIKE`
pre-filter refined by an exact in-memory membership filter — equals the
single exact filter: active rows whose event set contains the event as a
member. -/
theorem matchingSubscriptions_eq (subs : List WebhookSubscription) (event : String) :
    matchingSubscriptions subs event =
      subs.filter (fun sub => sub.isActive && sub.events.contains event) := by
  unfold matchingSubscriptions sqlSubscriptionQuery
  rw [List.filter_filter]
  refine List.filter_congr ?_
  intro sub _
  cases hc : sub.events.contains event
  · simp [hc]
  · simp [hc, likeMatches_of_contains hc]

/-- Folding an append-one-record step over a list grows the accumulator
by exactly one record per element, in order. -/
theorem trigger_foldl_eq (l : List WebhookSubscription) (orderId : Nat)
    (event : String) (payloadData : Json) (timestampOf : Nat → String)
    (outcomeOf : Nat → HttpOutcome) (freshIdOf : Nat → Nat) (now : Nat)
    (deliveries : List DeliveryRecord) :
    l.foldl
      (fun acc sub =>
        (sendAndRecordDelivery sub
          ⟨event, orderId, payloadData, timestampOf sub.id⟩ 1
          (outcomeOf sub.id) (freshIdOf sub.id) now acc).2)
      deliveries =
    deliveries ++ l.map (fun sub =>
      (sendAndRecordDelivery sub
        ⟨event, orderId, payloadData, timestampOf sub.id⟩ 1
        (outcomeOf sub.id) (freshIdOf sub.id) now []).1) := by
  induction l generalizing deliveries with
  | nil => simp
  | cons sub rest ih =>
    simp only [List.foldl_cons, List.map_cons]
    rw [ih]
    simp [sendAndRecordDelivery, List.append_assoc]

/-- With unique subscription keys, filtering a predicate conjoined with a
key test counts one row when the predicate holds of the key's owner and
none otherwise. -/
theorem count_filter_by_id (subs : List WebhookSubscription)
    (hnd : (subs.map (fun s => s.id)).Nodup) (sub : WebhookSubscription)
    (hmem : sub ∈ subs) (q : WebhookSubscription → Bool) :
    (subs.filter (fun x => q x && x.id == sub.id)).length =
      if q sub then 1 else 0 := by
  induction subs with
  | nil => cases hmem
  | cons a rest ih =>
    simp only [List.map_cons, List.nodup_cons] at hnd
    rcases List.mem_cons.mp hmem with rfl | hmem'
    · have hrest : rest.filter (fun x => q x && x.id == sub.id) = [] := by
        refine List.filter_eq_nil_iff.mpr ?_
        intro x hx
        have hne : x.id ≠ sub.id := by
          intro hEq
          exact hnd.1 (hEq ▸ List.mem_map_of_mem (fun s => s.id) hx)
        simp [hne]
      by_cases hq : q sub <;> simp [List.filter_cons, hq, hrest]
    · have hne : a.id ≠ sub.id := by
        intro hEq
        exact hnd.1 (hEq ▸ List.mem_map_of_mem (fun s => s.id) hmem')
      have hb : (a.id == sub.id) = false := by simp [hne]
      simp [List.filter_cons, hb, ih hnd.2 hmem']

/-- C4: `triggerWebhooks` selects exactly the subscriptions with
`isActive = true` whose event set contains the event as an exact string
member (the `LIKE` substring pre-filter changes nothing); it appends
exactly one new record per selected subscription — each with
`attemptNumber = 1` and that subscription's key — with unique keys no
subscription is recorded twice, inactive or non-matching rows get
nothing, and with no match the call is a no-op. -/
theorem triggerWebhooks_fanout (subs : List WebhookSubscription) (orderId : Nat)
    (event : String) (payloadData : Json) (timestampOf : Nat → String)
    (outcomeOf : Nat → HttpOutcome) (freshIdOf : Nat → Nat) (now : Nat)
    (deliveries : List DeliveryRecord) :
    matchingSubscriptions subs event =
      subs.filter (fun sub => sub.isActive && sub.events.contains event)
    ∧ triggerWebhooks subs orderId event payloadData timestampOf outcomeOf
        freshIdOf now deliveries =
      deliveries ++ (matchingSubscriptions subs event).map (fun sub =>
        (sendAndRecordDelivery sub
          ⟨event, orderId, payloadData, timestampOf sub.id⟩ 1
          (outcomeOf sub.id) (freshIdOf sub.id) now []).1)
    ∧ (∀ record ∈ (matchingSubscriptions subs event).map (fun sub =>
          (sendAndRecordDelivery sub
            ⟨event, orderId, payloadData, timestampOf sub.id⟩ 1
            (outcomeOf sub.id) (freshIdOf sub.id) now []).1),
        record.attemptNumber = 1)
    ∧ ((subs.map (fun s => s.id)).Nodup → ∀ sub ∈ subs,
        (((matchingSubscriptions subs event).map (fun sub =>
            (sendAndRecordDelivery sub
              ⟨event, orderId, payloadData, timestampOf sub.id⟩ 1
              (outcomeOf sub.id) (freshIdOf sub.id) now []).1)).filter
          (fun record => record.subscriptionId == sub.id)).length =
        if sub.isActive && sub.events.contains event then 1 else 0)
    ∧ (matchingSubscriptions subs event = [] →
        triggerWebhooks subs orderId event payloadData timestampOf outcomeOf
          freshIdOf now deliveries = deliveries) := by
  refine ⟨matchingSubscriptions_eq subs event, ?_, ?_, ?_, ?_⟩
  · exact trigger_foldl_eq _ orderId event payloadData timestampOf outcomeOf
      freshIdOf now deliveries
  · intro record hrec
    rcases List.mem_map.mp hrec with ⟨sub, -, rfl⟩
    rfl
  · intro hnd sub hmem
    rw [List.filter_map]
    have hcomp : ((fun record : DeliveryRecord => record.subscriptionId == sub.id) ∘
        (fun sub : WebhookSubscription =>
          (sendAndRecordDelivery sub
            ⟨event, orderId, payloadData, timestampOf sub.id⟩ 1
            (outcomeOf sub.id) (freshIdOf sub.id) now []).1)) =
        fun x : WebhookSubscription => x.id == sub.id := rfl
    rw [hcomp, List.length_map, matchingSubscriptions_eq, List.filter_filter]
    have hswap : (fun x : WebhookSubscription =>
          (x.id == sub.id) && (x.isActive && x.events.contains event)) =
        fun x : WebhookSubscription =>
          (x.isActive && x.events.contains event) && (x.id == sub.id) := by
      funext x
      exact Bool.and_comm _ _
    rw [hswap]
    exact count_filter_by_id subs hnd sub hmem
      (fun y => y.isActive && y.events.contains event)
  · intro hempty
    unfold triggerWebhooks
    rw [hempty]
    rfl

/-- The spec's fan-out example through `triggerWebhooks_fanout`: three
active subscriptions to `order.status.SHIPPED` and one inactive one
produce exactly three records, none for the inactive row. -/
theorem triggerWebhooks_fanout_witness :
    matchingSubscriptions
      [⟨1, "https://a.example", "s1", ["order.status.SHIPPED"], true⟩,
       ⟨2, "https://b.example", "s2", ["order.status.SHIPPED"], true⟩,
       ⟨3, "https://c.example", "s3", ["order.status.SHIPPED"], true⟩,
       ⟨4, "https://d.example", "s4", ["order.status.SHIPPED"], false⟩]
      "order.status.SHIPPED" =
      [⟨1, "https://a.example", "s1", ["order.status.SHIPPED"], true⟩,
       ⟨2, "https://b.example", "s2", ["order.status.SHIPPED"], true⟩,
       ⟨3, "https://c.example", "s3", ["order.status.SHIPPED"], true⟩] := by
  rw [(triggerWebhooks_fanout
    [⟨1, "https://a.example", "s1", ["order.status.SHIPPED"], true⟩,
     ⟨2, "https://b.example", "s2", ["order.status.SHIPPED"], true⟩,
     ⟨3, "https://c.example", "s3", ["order.status.SHIPPED"], true⟩,
     ⟨4, "https://d.example", "s4", ["order.status.SHIPPED"], false⟩]
    0 "order.status.SHIPPED" Json.null (fun _ => "ts") (fun _ => .unknownThrow)
    (fun i => i) 0 []).1]
  decide

/-! ## C3 — the dispatcher normalizes every outcome into one record -/

/-- C3: `sendAndRecordDelivery` treats every received HTTP status —
including 4xx/5xx — as a completed request and never escalates a delivery
failure: for *every* outcome it appends exactly one new record carrying
the given attempt number and the sent payload. `success` holds exactly
for a received status in `[200, 300)`; `statusCode` is absent exactly
when no HTTP response arrived, in which case the error text is recorded
in `responseBody` (which is never absent); consequently a record with
`success = true` always carries a status code in `[200, 300)`. -/
theorem sendAndRecordDelivery_normalization (subscription : WebhookSubscription)
    (payload : WebhookPayload) (attemptNumber : Nat) (outcome : HttpOutcome)
    (freshId now : Nat) (deliveries : List DeliveryRecord) :
    ∃ record,
      sendAndRecordDelivery subscription payload attemptNumber outcome freshId now
          deliveries = (record, deliveries ++ [record])
      ∧ record.attemptNumber = attemptNumber
      ∧ record.payload = payload
      ∧ record.subscriptionId = subscription.id
      ∧ record.orderId = payload.orderId
      ∧ record.event = payload.event
      ∧ (record.success = true ↔
          ∃ status data, outcome = .received status data ∧ 200 ≤ status ∧ status < 300)
      ∧ (record.statusCode = none ↔ ∀ status data, outcome ≠ .received status data)
      ∧ (∀ status data, outcome = .received status data →
          record.statusCode = some status ∧
          record.responseBody = some (responseText data))
      ∧ (∀ message, outcome = .transportError message ∨ outcome = .otherError message →
          record.statusCode = none ∧ record.responseBody = some message)
      ∧ (outcome = .unknownThrow →
          record.responseBody = some "Unknown webhook delivery error")
      ∧ record.responseBody ≠ none
      ∧ (record.success = true →
          ∃ status, record.statusCode = some status ∧ 200 ≤ status ∧ status < 300) := by
  refine ⟨_, rfl, rfl, rfl, rfl, rfl, rfl, ?_, ?_, ?_, ?_, ?_, ?_, ?_⟩
  · cases outcome with
    | received status data =>
      simp only [sendAndRecordDelivery]
      constructor
      · intro h
        rcases Bool.and_eq_true .. |>.mp h with ⟨h₁, h₂⟩
        exact ⟨status, data, rfl, of_decide_eq_true h₁, of_decide_eq_true h₂⟩
      · rintro ⟨s, d, heq, h₁, h₂⟩
        cases heq
        simp [h₁, h₂]
    | transportError message =>
      simp only [sendAndRecordDelivery]
      constructor
      · intro h
        cases h
      · rintro ⟨s, d, heq, -, -⟩
        cases heq
    | otherError message =>
      simp only [sendAndRecordDelivery]
      constructor
      · intro h
        cases h
      · rintro ⟨s, d, heq, -, -⟩
        cases heq
    | unknownThrow =>
      simp only [sendAndRecordDelivery]
      constructor
      · intro h
        cases h
      · rintro ⟨s, d, heq, -, -⟩
        cases heq
  · cases outcome <;> simp [sendAndRecordDelivery]
  · intro status data heq
    cases heq
    exact ⟨rfl, rfl⟩
  · intro message heq
    rcases heq with heq | heq <;> cases heq <;> exact ⟨rfl, rfl⟩
  · intro heq
    cases heq
    rfl
  · cases outcome <;> simp [sendAndRecordDelivery]
  · cases outcome with
    | received status data =>
      intro h
      rcases Bool.and_eq_true .. |>.mp h with ⟨h₁, h₂⟩
      exact ⟨status, rfl, of_decide_eq_true h₁, of_decide_eq_true h₂⟩
    | transportError message => intro h; cases h
    | otherError message => intro h; cases h
    | unknownThrow => intro h; cases h

/-- The spec's three dispatcher test vectors, read off
`sendAndRecordDelivery_normalization` at concrete outcomes: HTTP 200 →
`success`, `statusCode = 200`; HTTP 500 → `¬success`, `statusCode = 500`,
body captured — no throw; connection refused → `¬success`, absent
`statusCode`, the error message recorded. -/
theorem sendAndRecordDelivery_normalization_witness :
    (∃ record,
      sendAndRecordDelivery ⟨7, "https://x.example/h", "sec", ["test"], true⟩
        ⟨"test", 0, Json.null, "ts"⟩ 1 (.received 200 (Json.str "ok")) 1 2 [] =
          (record, [] ++ [record])
      ∧ record.success = true ∧ record.statusCode = some 200)
    ∧ (∃ record,
      sendAndRecordDelivery ⟨7, "https://x.example/h", "sec", ["test"], true⟩
        ⟨"test", 0, Json.null, "ts"⟩ 1 (.received 500 (Json.str "boom")) 1 2 [] =
          (record, [] ++ [record])
      ∧ record.success = false ∧ record.statusCode = some 500
      ∧ record.responseBody = some "boom")
    ∧ (∃ record,
      sendAndRecordDelivery ⟨7, "https://x.example/h", "sec", ["test"], true⟩
        ⟨"test", 0, Json.null, "ts"⟩ 1 (.transportError "connection refused") 1 2 [] =
          (record, [] ++ [record])
      ∧ record.success = false ∧ record.statusCode = none
      ∧ record.responseBody = some "connection refused") := by
  refine ⟨?_, ?_, ?_⟩
  · obtain ⟨record, h₁, -, -, -, -, -, hsucc, -, hrecv, -⟩ :=
      sendAndRecordDelivery_normalization ⟨7, "https://x.example/h", "sec", ["test"], true⟩
        ⟨"test", 0, Json.null, "ts"⟩ 1 (.received 200 (Json.str "ok")) 1 2 []
    exact ⟨record, h₁, hsucc.mpr ⟨200, Json.str "ok", rfl, by decide, by decide⟩,
      (hrecv 200 (Json.str "ok") rfl).1⟩
  · obtain ⟨record, h₁, -, -, -, -, -, hsucc, -, hrecv, -⟩ :=
      sendAndRecordDelivery_normalization ⟨7, "https://x.example/h", "sec", ["test"], true⟩
        ⟨"test", 0, Json.null, "ts"⟩ 1 (.received 500 (Json.str "boom")) 1 2 []
    refine ⟨record, h₁, ?_, (hrecv 500 (Json.str "boom") rfl).1,
      (hrecv 500 (Json.str "boom") rfl).2⟩
    cases hs : record.success
    · rfl
    · rcases hsucc.mp hs with ⟨s, d, heq, -, hlt⟩
      cases heq
      exact absurd hlt (by decide)
  · obtain ⟨record, h₁, -, -, -, -, -, hsucc, -, -, herr, -⟩ :=
      sendAndRecordDelivery_normalization ⟨7, "https://x.example/h", "sec", ["test"], true⟩
        ⟨"test", 0, Json.null, "ts"⟩ 1 (.transportError "connection refused") 1 2 []
    refine ⟨record, h₁, ?_, (herr "connection refused" (Or.inl rfl)).1,
      (herr "connection refused" (Or.inl rfl)).2⟩
    cases hs : record.success
    · rfl
    · rcases hsucc.mp hs with ⟨s, d, heq, -, -⟩
      cases heq

/-! ## C5 and C10 — delivery retry -/

/-- C5: `retryWebhookDelivery` fails not-found — leaving the delivery
table untouched — when the delivery id is absent or its owning
subscription row is gone; otherwise it appends exactly one new record
re-sending the stored payload verbatim (hence the same event, orderId,
data and timestamp as first sent) with the attempt counter incremented,
returning the new record; all pre-existing records, the original
included, are left unchanged in place. -/
theorem retryWebhookDelivery_contract (subs : List WebhookSubscription)
    (deliveries : List DeliveryRecord) (deliveryId : Nat) (outcome : HttpOutcome)
    (freshId now : Nat) :
    (findDelivery deliveries deliveryId = none →
      retryWebhookDelivery subs deliveries deliveryId outcome freshId now =
        (deliveries, .error "Webhook delivery not found"))
    ∧ (∀ orig : DeliveryRecord, findDelivery deliveries deliveryId = some orig →
        findSubscription subs orig.subscriptionId = none →
        retryWebhookDelivery subs deliveries deliveryId outcome freshId now =
          (deliveries, .error "Webhook subscription not found for delivery"))
    ∧ (∀ (orig : DeliveryRecord) (sub : WebhookSubscription),
        findDelivery deliveries deliveryId = some orig →
        findSubscription subs orig.subscriptionId = some sub →
        ∃ record,
          retryWebhookDelivery subs deliveries deliveryId outcome freshId now =
            (deliveries ++ [record], .ok record)
          ∧ record.payload = orig.payload
          ∧ record.attemptNumber = orig.attemptNumber + 1
          ∧ record.subscriptionId = orig.subscriptionId
          ∧ record.event = orig.payload.event
          ∧ record.orderId = orig.payload.orderId) := by
  refine ⟨fun h => ?_, fun orig h hs => ?_, fun orig sub h hs => ?_⟩
  · simp [retryWebhookDelivery, h]
  · simp [retryWebhookDelivery, h, hs]
  · have hb := List.find?_some
      (show subs.find? (fun s => s.id == orig.subscriptionId) = some sub from hs)
    have hsubid : sub.id = orig.subscriptionId := eq_of_beq hb
    refine ⟨(sendAndRecordDelivery sub orig.payload (orig.attemptNumber + 1) outcome
      freshId now deliveries).1, ?_, rfl, rfl, hsubid, rfl, rfl⟩
    simp [retryWebhookDelivery, h, hs, sendAndRecordDelivery]

/-- The spec's not-found retry vector through
`retryWebhookDelivery_contract`: retrying a nonexistent delivery id fails
and creates no record. -/
theorem retryWebhookDelivery_contract_witness :
    retryWebhookDelivery [] [] 42 (.transportError "connection refused") 1 2 =
      ([], .error "Webhook delivery not found") :=
  (retryWebhookDelivery_contract [] [] 42 (.transportError "connection refused") 1 2).1
    rfl

/-- C10: existence is the retry's *only* precondition — the code reads
neither the original delivery's `success` flag nor the subscription's
`isActive` flag, so any stored delivery whose subscription row still
exists is re-sent and re-recorded, whatever those flags hold. -/
theorem retryWebhookDelivery_only_requires_existence
    (subs : List WebhookSubscription) (deliveries : List DeliveryRecord)
    (deliveryId : Nat) (outcome : HttpOutcome) (freshId now : Nat)
    (orig : DeliveryRecord) (sub : WebhookSubscription)
    (h : findDelivery deliveries deliveryId = some orig)
    (hs : findSubscription subs orig.subscriptionId = some sub) :
    ∃ record,
      retryWebhookDelivery subs deliveries deliveryId outcome freshId now =
        (deliveries ++ [record], .ok record)
      ∧ record.payload = orig.payload
      ∧ record.attemptNumber = orig.attemptNumber + 1 := by
  refine ⟨(sendAndRecordDelivery sub orig.payload (orig.attemptNumber + 1) outcome
    freshId now deliveries).1, ?_, rfl, rfl⟩
  simp [retryWebhookDelivery, h, hs, sendAndRecordDelivery]

/-- `retryWebhookDelivery_only_requires_existence` at a delivery whose
`success` flag is `true` and whose subscription has `isActive = false`:
the retry still goes through and appends attempt 2. -/
theorem retryWebhookDelivery_only_requires_existence_witness :
    ∃ record,
      retryWebhookDelivery
        [⟨7, "https://x.example/h", "sec", ["order.status.CONFIRMED"], false⟩]
        [⟨3, 7, 1, "order.status.CONFIRMED", ⟨"order.status.CONFIRMED", 1, Json.null, "ts"⟩, some 200,
          some "ok", true, 1, 5⟩]
        3 (.received 200 (Json.str "ok")) 4 6 =
        ([⟨3, 7, 1, "order.status.CONFIRMED", ⟨"order.status.CONFIRMED", 1, Json.null, "ts"⟩, some 200,
          some "ok", true, 1, 5⟩] ++ [record], .ok record)
      ∧ record.payload = ⟨"order.status.CONFIRMED", 1, Json.null, "ts"⟩
      ∧ record.attemptNumber = 1 + 1 :=
  retryWebhookDelivery_only_requires_existence
    [⟨7, "https://x.example/h", "sec", ["order.status.CONFIRMED"], false⟩]
    [⟨3, 7, 1, "order.status.CONFIRMED", ⟨"order.status.CONFIRMED", 1, Json.null, "ts"⟩, some 200,
      some "ok", true, 1, 5⟩]
    3 (.received 200 (Json.str "ok")) 4 6
    ⟨3, 7, 1, "order.status.CONFIRMED", ⟨"order.status.CONFIRMED", 1, Json.null, "ts"⟩, some 200,
      some "ok", true, 1, 5⟩
    ⟨7, "https://x.example/h", "sec", ["order.status.CONFIRMED"], false⟩
    rfl rfl

/-! ## C9 — the signer -/

set_option maxRecDepth 100000
set_option maxHeartbeats 1600000

/-- The digest of the spec's example payload `\x7b"a":1\x7d` under secret
`"s"`, computed by kernel evaluation of the HMAC-SHA-256 embedding. -/
theorem signPayload_a1_s :
    signPayload (Json.obj [("a", Json.num 1)]) "s" =
      "37beaf650f70b40ec9706929c2e9d835cbd63729988f48781e6383a147215f07" := by
  decide

/-- The digest of `\x7b"a":2\x7d` under secret `"s"`. -/
theorem signPayload_a2_s :
    signPayload (Json.obj [("a", Json.num 2)]) "s" =
      "a2c0cd7e34935b8fe7d33507983109d4d83c734624ed7afc996b5a703c5b214a" := by
  decide

/-- The digest of `\x7b"a":1\x7d` under secret `"s1"`. -/
theorem signPayload_a1_s1 :
    signPayload (Json.obj [("a", Json.num 1)]) "s1" =
      "5725e17f6e09484c7894956553a1a3975012016aa465a74eeeacce5c66f8647d" := by
  decide

/-- The digest of `\x7b"a":1\x7d` under secret `"s2"`. -/
theorem signPayload_a1_s2 :
    signPayload (Json.obj [("a", Json.num 1)]) "s2" =
      "7e3eadaafe9945802a76fbac6b0d977896f01f59f54a4a0d7b1940381d800d75" := by
  decide

/-- C9: `signPayload` is a pure function of the payload and the secret —
two runs on equal inputs give the identical hex digest; the digest
separates the spec's example payload pair (`{a:1}` vs `{a:2}` under
secret `"s"`) and secret pair (`"s1"` vs `"s2"` on payload `{a:1}`), both
computed to concrete distinct digests; and the transmitted signature
header of every outbound request is the HMAC of exactly the serialized
JSON bytes sent as that request's body. -/
theorem signPayload_spec :
    (∀ (p q : Json) (s t : String), p = q → s = t → signPayload p s = signPayload q t)
    ∧ signPayload (Json.obj [("a", Json.num 1)]) "s" ≠
        signPayload (Json.obj [("a", Json.num 2)]) "s"
    ∧ signPayload (Json.obj [("a", Json.num 1)]) "s1" ≠
        signPayload (Json.obj [("a", Json.num 1)]) "s2"
    ∧ ∀ (subscription : WebhookSubscription) (payload : WebhookPayload),
        (webhookRequest subscription payload).signatureHeader =
          "sha256=" ++ bytesToHex (hmacSha256 (utf8Bytes subscription.secret)
            (utf8Bytes (webhookRequest subscription payload).body)) := by
  refine ⟨fun p q s t hp hs => by rw [hp, hs], ?_, ?_, fun subscription payload => rfl⟩
  · rw [signPayload_a1_s, signPayload_a2_s]
    decide
  · rw [signPayload_a1_s1, signPayload_a1_s2]
    decide

/-- Determinism of `signPayload_spec` read off at the example payload. -/
theorem signPayload_spec_witness :
    signPayload (Json.obj [("a", Json.num 1)]) "s" =
      signPayload (Json.obj [("a", Json.num 1)]) "s" :=
  signPayload_spec.1 (Json.obj [("a", Json.num 1)]) (Json.obj [("a", Json.num 1)])
    "s" "s" rfl rfl

end BrandBolt
